import Mathlib

set_option maxRecDepth 2000

/- Shallow embedding of the AT24CXX EEPROM controller (at24cxx.h / at24cxx.cpp,
   namespace PeripheralIO of the source).

   Machine integers are modelled as Nat, reduced mod 2^w exactly where the C++
   code truncates (uint8_t casts, the uint32_t cast in the bounds guard).
   Intermediate arithmetic (address + n, n + j - 1, address + n_sent, shifts)
   is done by the source in int; the model takes int to be 32 bits wide (the
   common Arduino targets: ARM Cortex-M, ESP32, RP2040), under which every
   intermediate value that occurs here stays far below 2^31, so that
   arithmetic is exact.

   Bus traffic is modelled as the trace of transactions the driver issues: a
   write transaction records the 7-bit device address given to
   beginTransmission, the word-address bytes, the payload bytes, and the
   logical cursor at which the transaction starts; a read records the
   address-setup transaction and the sequence of requestFrom calls.  The bus
   (TwoWire) is external; the model assumes it acknowledges and delivers every
   requested byte, so each requestFrom(addr, k) drains exactly k bytes. -/

/-- One I2C write transaction issued by writeN: beginTransmission(devAddr),
    the word-address bytes, the payload bytes, endTransmission(1).  The field
    cursor records the logical address (address + n_sent in the source) at
    which the transaction starts; it is the value from which the device
    address and the word-address bytes of the transaction are computed. -/
structure WriteTx where
  devAddr : Nat
  wordBytes : List Nat
  payload : List Nat
  cursor : Nat
deriving Repr, DecidableEq

/-- The trace of a readN call: setups lists the (device address, word-address
    bytes) of the address-setup transaction (beginTransmission ...
    endTransmission(0)), requests lists the (device address, byte count) of
    each requestFrom call. -/
structure ReadTrace where
  ok : Bool
  setups : List (Nat × List Nat)
  requests : List (Nat × Nat)
deriving Repr, DecidableEq

/-- GPIO actions performed through the Arduino pin API. -/
inductive PinEvent where
  | pinModeOutput (pin : Nat)
  | digitalWrite (pin : Nat) (high : Bool)
deriving Repr, DecidableEq

/-- The AT24CXX controller object: the private fields of the C++ class.
    The field _addr_size is never read by the source and is omitted.
    All fields are uint8_t except _chip_size (uint32_t); _wp_pin is a
    uint8_t, so the -1 written by the constructor is stored as 255. -/
structure AT24CXX where
  chip_addr : Nat
  chip_size : Nat
  page_size : Nat
  addr_bytes : Nat
  addr_ov_bits : Nat
  mode : Nat
  wp_pin : Nat
deriving Repr, DecidableEq

/-- Base 7-bit device address of the AT24CXX family. -/
def AT24CXX_ADDR : Nat := 0x50

/-- Maximum number of bytes held in the Wire read buffer. -/
def I2C_READ_BUFFER_SIZE : Nat := 32

/-- Write cycle delay, ms (datasheet: 5 ms max). -/
def EEPROM_WRITE_CYCLE_TIME_MS : Nat := 5

/- Chip selection constants (word size | page size | addr bytes | addr
   overflow bits), exactly the packing of the source catalog. -/

def AT24C01 : Nat := 128 ||| (8 <<< 20) ||| (1 <<< 28) ||| (0 <<< 30)
def AT24C02 : Nat := 256 ||| (8 <<< 20) ||| (1 <<< 28) ||| (0 <<< 30)
def AT24C04 : Nat := 512 ||| (16 <<< 20) ||| (1 <<< 28) ||| (1 <<< 30)
def AT24C08 : Nat := 1024 ||| (16 <<< 20) ||| (1 <<< 28) ||| (2 <<< 30)
def AT24C16 : Nat := 2048 ||| (16 <<< 20) ||| (1 <<< 28) ||| (3 <<< 30)
def AT24C32 : Nat := 4096 ||| (32 <<< 20) ||| (2 <<< 28) ||| (0 <<< 30)
def AT24C64 : Nat := 8192 ||| (32 <<< 20) ||| (2 <<< 28) ||| (0 <<< 30)
def AT24C128 : Nat := 16384 ||| (64 <<< 20) ||| (2 <<< 28) ||| (0 <<< 30)
def AT24C256 : Nat := 32768 ||| (64 <<< 20) ||| (2 <<< 28) ||| (0 <<< 30)
def AT24C512 : Nat := 65536 ||| (128 <<< 20) ||| (2 <<< 28) ||| (0 <<< 30)

/-- The list of catalog chip constants (the legal variants). -/
def catalog : List Nat :=
  [AT24C01, AT24C02, AT24C04, AT24C08, AT24C16,
   AT24C32, AT24C64, AT24C128, AT24C256, AT24C512]

/-- The default-constructed controller: AT24CXX::AT24CXX() sets every
    field to zero except _wp_pin, which is set to -1; _wp_pin is a uint8_t, so
    the stored value is 255. -/
def defaultState : AT24CXX :=
  { chip_addr := 0, chip_size := 0, page_size := 0, addr_bytes := 0,
    addr_ov_bits := 0, mode := 0, wp_pin := 255 }

/-- The check (_wp_pin != -1) of the source.  _wp_pin has type uint8_t; C++
    integer promotion compares its value (in 0..255) with the int -1, so the
    check is true for every stored value, including the 255 that the sentinel
    -1 becomes. -/
def wpPinCheck (p : Nat) : Bool := (Int.ofNat p) != -1

/-- AT24CXX::begin.  Unpacks the packed chip constant into the geometry
    fields, masks the caller select into the base device address, stores the
    WP pin (a uint8_t argument: a caller -1, the default, arrives as 255) and,
    when the wpPinCheck passes, configures the pin as output and drives it
    low; finally enters Active mode.  Returns the new state and the GPIO
    actions performed. -/
def begin (chip select wp_pin : Nat) : AT24CXX × List PinEvent :=
  let wp := wp_pin % 256
  let s : AT24CXX :=
    { chip_addr := AT24CXX_ADDR ||| (select &&& 0x07),
      chip_size := chip &&& 0x0001FFFF,
      page_size := ((chip &&& 0x0FF00000) >>> 20) % 256,
      addr_bytes := ((chip &&& 0x30000000) >>> 28) % 256,
      addr_ov_bits := ((chip &&& 0xC0000000) >>> 30) % 256,
      mode := 1,
      wp_pin := wp }
  (s, if wpPinCheck wp then
        [PinEvent.pinModeOutput wp, PinEvent.digitalWrite wp false]
      else [])

/-- AT24CXX::isConnected.  The ack argument models whether the chip
    acknowledges the probe on the bus.  Returns the result and the device
    addresses probed with beginTransmission. -/
def isConnected (s : AT24CXX) (ack : Bool) : Bool × List Nat :=
  if s.mode ≠ 0 then (ack, [s.chip_addr]) else (false, [])

/-- AT24CXX::setWriteProtect: drives the WP pin high when the (_wp_pin != -1)
    check passes. -/
def setWriteProtect (s : AT24CXX) : List PinEvent :=
  if wpPinCheck s.wp_pin then [PinEvent.digitalWrite s.wp_pin true] else []

/-- AT24CXX::clearWriteProtect: drives the WP pin low when the
    (_wp_pin != -1) check passes. -/
def clearWriteProtect (s : AT24CXX) : List PinEvent :=
  if wpPinCheck s.wp_pin then [PinEvent.digitalWrite s.wp_pin false] else []

/-- The effective page size used by writeN: _page_size, except that with
    more than one word-address byte and n > 30 the source caps it at 16
    (source comment: AT24C32+ can only write 30 bytes at a time). -/
def effPageSize (s : AT24CXX) (n : Nat) : Nat :=
  if 1 < s.addr_bytes ∧ 30 < n then 16 else s.page_size

/-- The device address used for a transaction starting at cursor: when
    overflow bits are configured, the low three bits of the base address are
    replaced with bits 8..10 of the cursor
    ((_chip_addr & 0xF8) | (((address + n_sent) & 0x0700) >> 8), cast to
    uint8_t); otherwise the base address itself. -/
def devAddrAt (s : AT24CXX) (cursor : Nat) : Nat :=
  if s.addr_ov_bits ≠ 0 then
    ((s.chip_addr &&& 0xF8) ||| ((cursor &&& 0x0700) >>> 8)) % 256
  else s.chip_addr

/-- The word-address bytes emitted for a transaction at cursor: the high
    byte first when _addr_bytes > 1, then the low byte (uint8_t casts of
    cursor >> 8 and cursor). -/
def wordBytesAt (s : AT24CXX) (cursor : Nat) : List Nat :=
  if 1 < s.addr_bytes then [(cursor >>> 8) % 256, cursor % 256]
  else [cursor % 256]

/-- The for-loop of writeN, one iteration per transaction.  Each iteration
    starts a transaction at cursor = address + n_sent, computing the device
    address (with overflow-bit substitution when configured) and the
    word-address bytes, then emits payload bytes while (j++ < page_size)
    and (n_sent < n); j restarts at 0 for the following iteration.  The
    number of payload bytes of an iteration is therefore
    min (page_size - j) (n - n_sent). -/
def writeLoop (s : AT24CXX) (P address : Nat) (vals : List Nat) (n : Nat) :
    Nat → Nat → Nat → List WriteTx
  | 0, _, _ => []
  | fuel + 1, j, nSent =>
    let cursor := address + nSent
    let len := min (P - j) (n - nSent)
    { devAddr := devAddrAt s cursor,
      wordBytes := wordBytesAt s cursor,
      payload := (vals.drop nSent).take len,
      cursor := cursor } :: writeLoop s P address vals n fuel 0 (nSent + len)

/-- AT24CXX::writeN.  Guard: _mode and (uint32_t)(address + n) <= _chip_size
    (the sum is computed in 32-bit int, hence exact for the 16-bit address
    and 8-bit n; the cast is the reduction mod 2^32).  On success computes
    the effective page size, the page offset j = address % page_size, the
    transaction count pages_req = (n + j - 1) / page_size + 1 (a uint8_t; in
    the source the division is int division, which agrees with the Nat
    division used here for every n <= 255, including n = 0, where both
    sides give pages_req = 1), and runs the transaction loop. -/
def writeN (s : AT24CXX) (address : Nat) (vals : List Nat) (n : Nat) :
    Bool × List WriteTx :=
  if s.mode ≠ 0 ∧ (address + n) % 4294967296 ≤ s.chip_size then
    let P := effPageSize s n
    let j := address % P
    let pages_req := ((n + j - 1) / P + 1) % 256
    (true, writeLoop s P address vals n pages_req j 0)
  else (false, [])

/-- The requestFrom chunk sizes of readN: while bytes_read < n, request
    I2C_READ_BUFFER_SIZE bytes when more than that remain, otherwise the
    remainder.  Structural fuel version (fuel = r suffices: each step removes
    at least one byte). -/
def readChunksAux : Nat → Nat → List Nat
  | 0, _ => []
  | fuel + 1, r =>
    if r = 0 then []
    else if I2C_READ_BUFFER_SIZE < r then
      I2C_READ_BUFFER_SIZE :: readChunksAux fuel (r - I2C_READ_BUFFER_SIZE)
    else [r]

/-- The list of requestFrom sizes for reading r bytes. -/
def readChunks (r : Nat) : List Nat := readChunksAux r r

/-- AT24CXX::readN.  Same guard as writeN.  On success issues one
    address-setup transaction (device address computed from the start
    address with overflow substitution, word-address bytes, end without
    stop), then requestFrom calls in chunks of at most
    I2C_READ_BUFFER_SIZE until n bytes are drained. -/
def readN (s : AT24CXX) (address : Nat) (n : Nat) : ReadTrace :=
  if s.mode ≠ 0 ∧ (address + n) % 4294967296 ≤ s.chip_size then
    let addr := devAddrAt s address
    { ok := true,
      setups := [(addr, wordBytesAt s address)],
      requests := (readChunks n).map (fun k => (addr, k)) }
  else { ok := false, setups := [], requests := [] }

/-- bool AT24CXX::write(uint16_t, uint8_t): writeN of the single byte. -/
def write1 (s : AT24CXX) (address val : Nat) : Bool × List WriteTx :=
  writeN s address [val % 256] 1

/-- bool AT24CXX::write(uint16_t, uint8_t[], uint8_t): delegates to writeN
    with the caller length. -/
def writeArr (s : AT24CXX) (address : Nat) (vals : List Nat) (n : Nat) :
    Bool × List WriteTx :=
  writeN s address vals n

/-- bool AT24CXX::write(uint16_t, const char[], uint8_t): delegates to
    writeN with the caller length. -/
def writeStr (s : AT24CXX) (address : Nat) (str : List Nat) (n : Nat) :
    Bool × List WriteTx :=
  writeN s address str n

/-- uint8_t AT24CXX::read(uint16_t): readN of one byte (the returned byte is
    whatever the bus delivered; only the trace is modelled). -/
def read1 (s : AT24CXX) (address : Nat) : ReadTrace :=
  readN s address 1

/-- bool AT24CXX::read(uint16_t, uint8_t*, uint8_t): the source delegates to
    readN with a hard-coded length of 1 (at24cxx.cpp line 116), not the
    caller n. -/
def readArr (s : AT24CXX) (address : Nat) (n : Nat) : ReadTrace :=
  readN s address 1

/-- bool AT24CXX::read(uint16_t, char[], uint8_t): delegates to readN with
    the caller length. -/
def readStr (s : AT24CXX) (address : Nat) (n : Nat) : ReadTrace :=
  readN s address n

/-- The device-address byte as the words of the spec describe it (section
    4.2 and testable property 5): low k bits taken from bits [8+k-1 : 8] of
    the cursor c, upper bits equal to 0x50 OR the caller select masked to
    exclude those k bits.  Written only for comparison with the devAddrAt
    computation of the source. -/
def specDevAddr (select k c : Nat) : Nat :=
  ((0x50 ||| (select &&& 0x07)) &&& (0x7F ^^^ (2 ^ k - 1))) |||
    ((c >>> 8) % 2 ^ k)

/- ------------------------------------------------------------------ -/
/- Helper lemmas about the write loop.                                 -/
/- ------------------------------------------------------------------ -/

/-- The loop issues exactly one transaction per unit of fuel. -/
lemma writeLoop_length (s : AT24CXX) (P address : Nat) (vals : List Nat)
    (n : Nat) : ∀ (fuel j nSent : Nat),
    (writeLoop s P address vals n fuel j nSent).length = fuel := by
  intro fuel
  induction fuel with
  | zero => intro j nSent; rfl
  | succ f ih => intro j nSent; simp only [writeLoop, List.length_cons, ih]

/-- Each transaction of the loop carries at most P payload bytes. -/
lemma writeLoop_payload_le (s : AT24CXX) (P address : Nat) (vals : List Nat)
    (n : Nat) : ∀ (fuel j nSent : Nat),
    ∀ tx ∈ writeLoop s P address vals n fuel j nSent,
      tx.payload.length ≤ P := by
  intro fuel
  induction fuel with
  | zero => intro j nSent tx htx; simp [writeLoop] at htx
  | succ f ih =>
      intro j nSent tx htx
      simp only [writeLoop] at htx
      rcases List.mem_cons.mp htx with rfl | htl
      · show ((vals.drop nSent).take (min (P - j) (n - nSent))).length ≤ P
        simp only [List.length_take, List.length_drop]
        omega
      · exact ih 0 _ tx htl

/-- Every transaction of the loop uses the device address and word-address
    bytes computed from its own cursor. -/
lemma writeLoop_devAddr (s : AT24CXX) (P address : Nat) (vals : List Nat)
    (n : Nat) : ∀ (fuel j nSent : Nat),
    ∀ tx ∈ writeLoop s P address vals n fuel j nSent,
      tx.devAddr = devAddrAt s tx.cursor ∧
      tx.wordBytes = wordBytesAt s tx.cursor := by
  intro fuel
  induction fuel with
  | zero => intro j nSent tx htx; simp [writeLoop] at htx
  | succ f ih =>
      intro j nSent tx htx
      simp only [writeLoop] at htx
      rcases List.mem_cons.mp htx with rfl | htl
      · exact ⟨rfl, rfl⟩
      · exact ih 0 _ tx htl

/-- From a page-aligned state (j = 0) with fuel f + 1 and f * P bytes still
    strictly below the remaining n - nSent, every cursor the loop emits stays
    strictly below address + n. -/
lemma writeLoop_cursor_lt (s : AT24CXX) (P address : Nat) (vals : List Nat)
    (n : Nat) : ∀ (f nSent : Nat), nSent + f * P < n →
    ∀ tx ∈ writeLoop s P address vals n (f + 1) 0 nSent,
      tx.cursor < address + n := by
  intro f
  induction f with
  | zero =>
      intro nSent h tx htx
      simp only [writeLoop] at htx
      rcases List.mem_cons.mp htx with rfl | htl
      · show address + nSent < address + n
        omega
      · exact absurd htl (List.not_mem_nil tx)
  | succ f ih =>
      intro nSent h tx htx
      rw [add_mul, one_mul] at h
      simp only [writeLoop] at htx
      rcases List.mem_cons.mp htx with rfl | htl
      · show address + nSent < address + n
        obtain ⟨m, hm⟩ : ∃ m, f * P = m := ⟨_, rfl⟩
        rw [hm] at h
        omega
      · refine ih _ ?_ tx htl
        obtain ⟨m, hm⟩ : ∃ m, f * P = m := ⟨_, rfl⟩
        rw [hm] at h ⊢
        omega

/- ------------------------------------------------------------------ -/
/- Helper lemmas about writeN and readN.                               -/
/- ------------------------------------------------------------------ -/

/-- The transaction list of writeN is empty (guard failed) or the loop run
    with page offset j = address % P and fuel (n + j - 1) / P + 1 (mod 256:
    pages_req is a uint8_t). -/
lemma writeN_cases (s : AT24CXX) (address : Nat) (vals : List Nat)
    (n : Nat) :
    (writeN s address vals n).2 = [] ∨
    (writeN s address vals n).2 =
      writeLoop s (effPageSize s n) address vals n
        (((n + address % effPageSize s n - 1) / effPageSize s n + 1) % 256)
        (address % effPageSize s n) 0 := by
  simp only [writeN]
  split
  · right; rfl
  · left; rfl

/-- readN is the failure trace or the single setup plus the chunked
    requestFrom calls. -/
lemma readN_cases (s : AT24CXX) (address n : Nat) :
    readN s address n = { ok := false, setups := [], requests := [] } ∨
    readN s address n =
      { ok := true,
        setups := [(devAddrAt s address, wordBytesAt s address)],
        requests := (readChunks n).map (fun k => (devAddrAt s address, k)) } := by
  simp only [readN]
  split
  · right; rfl
  · left; rfl

/-- The uint8_t pages_req never overflows: for n <= 255 and a page size of
    at least 8 the transaction count is below 256. -/
lemma pages_req_lt_256 {n j P : Nat} (hn : n ≤ 255) (hj : j < P)
    (hP : 8 ≤ P) : (n + j - 1) / P + 1 < 256 := by
  have h0 : 0 < P := by omega
  have h1 : n + j - 1 ≤ 253 + P := by omega
  have h2 : (n + j - 1) / P ≤ (253 + P) / P := Nat.div_le_div_right h1
  rw [Nat.add_div_right 253 h0] at h2
  have h3 : 253 / P ≤ 253 / 8 := Nat.div_le_div_left hP (by norm_num)
  norm_num at h3
  omega

/-- On an in-range request the writeN guard passes, and the number of
    transactions is exactly the ceiling of (n + address % P) / P. -/
lemma writeN_ok_length (s : AT24CXX) (address : Nat) (vals : List Nat)
    (n : Nat) (hmode : s.mode ≠ 0) (hn1 : 1 ≤ n) (hn2 : n ≤ 255)
    (hsz : address + n ≤ s.chip_size) (hsz32 : s.chip_size < 4294967296)
    (hP : 8 ≤ effPageSize s n) :
    (writeN s address vals n).1 = true ∧
    (writeN s address vals n).2.length =
      (n + address % effPageSize s n + (effPageSize s n - 1)) /
        effPageSize s n := by
  have hmod : (address + n) % 4294967296 = address + n :=
    Nat.mod_eq_of_lt (lt_of_le_of_lt hsz hsz32)
  have hguard : s.mode ≠ 0 ∧ (address + n) % 4294967296 ≤ s.chip_size :=
    ⟨hmode, by rw [hmod]; exact hsz⟩
  have h0 : 0 < effPageSize s n := by omega
  have hj : address % effPageSize s n < effPageSize s n := Nat.mod_lt _ h0
  have hlt : (n + address % effPageSize s n - 1) / effPageSize s n + 1 < 256 :=
    pages_req_lt_256 hn2 hj hP
  constructor
  · simp only [writeN]
    rw [if_pos hguard]
  · simp only [writeN]
    rw [if_pos hguard]
    show (writeLoop s (effPageSize s n) address vals n
        (((n + address % effPageSize s n - 1) / effPageSize s n + 1) % 256)
        (address % effPageSize s n) 0).length = _
    rw [writeLoop_length, Nat.mod_eq_of_lt hlt]
    have harg : n + address % effPageSize s n - 1 + effPageSize s n =
        n + address % effPageSize s n + (effPageSize s n - 1) := by omega
    rw [← harg, Nat.add_div_right _ h0]

/-- Each transaction of writeN carries at most the effective page size of
    payload. -/
lemma writeN_payload_le (s : AT24CXX) (address : Nat) (vals : List Nat)
    (n : Nat) : ∀ tx ∈ (writeN s address vals n).2,
      tx.payload.length ≤ effPageSize s n := by
  intro tx htx
  rcases writeN_cases s address vals n with hc | hc
  · rw [hc] at htx; exact absurd htx (List.not_mem_nil tx)
  · rw [hc] at htx
    exact writeLoop_payload_le s _ address vals n _ _ _ tx htx

/-- Each transaction of writeN addresses the bus with the device address
    and word-address bytes computed from its own cursor. -/
lemma writeN_devAddr (s : AT24CXX) (address : Nat) (vals : List Nat)
    (n : Nat) : ∀ tx ∈ (writeN s address vals n).2,
      tx.devAddr = devAddrAt s tx.cursor ∧
      tx.wordBytes = wordBytesAt s tx.cursor := by
  intro tx htx
  rcases writeN_cases s address vals n with hc | hc
  · rw [hc] at htx; exact absurd htx (List.not_mem_nil tx)
  · rw [hc] at htx
    exact writeLoop_devAddr s _ address vals n _ _ _ tx htx

/-- Every cursor at which writeN starts a transaction lies strictly below
    address + n (so, for an in-range request, strictly below the chip
    capacity). -/
lemma writeN_cursor_lt (s : AT24CXX) (address : Nat) (vals : List Nat)
    (n : Nat) (hn1 : 1 ≤ n) (hn2 : n ≤ 255)
    (hP : 8 ≤ effPageSize s n) :
    ∀ tx ∈ (writeN s address vals n).2, tx.cursor < address + n := by
  intro tx htx
  rcases writeN_cases s address vals n with hc | hc
  · rw [hc] at htx; exact absurd htx (List.not_mem_nil tx)
  · rw [hc] at htx
    have h0 : 0 < effPageSize s n := by omega
    have hj : address % effPageSize s n < effPageSize s n := Nat.mod_lt _ h0
    have hlt : (n + address % effPageSize s n - 1) / effPageSize s n + 1
        < 256 := pages_req_lt_256 hn2 hj hP
    rw [Nat.mod_eq_of_lt hlt] at htx
    rw [writeLoop] at htx
    rcases List.mem_cons.mp htx with rfl | htl
    · show address + 0 < address + n
      omega
    · rcases Nat.eq_zero_or_pos
        ((n + address % effPageSize s n - 1) / effPageSize s n) with hq | hq
      · rw [hq] at htl
        simp [writeLoop] at htl
      · obtain ⟨q, hq'⟩ : ∃ q,
            (n + address % effPageSize s n - 1) / effPageSize s n = q + 1 :=
          ⟨_, (Nat.succ_pred_eq_of_pos hq).symm⟩
        rw [hq'] at htl
        refine writeLoop_cursor_lt s _ address vals n q _ ?_ tx htl
        have hdiv : ((n + address % effPageSize s n - 1) / effPageSize s n) *
            effPageSize s n ≤ n + address % effPageSize s n - 1 :=
          Nat.div_mul_le_self _ _
        rw [hq', add_mul, one_mul] at hdiv
        obtain ⟨m, hm⟩ : ∃ m, q * effPageSize s n = m := ⟨_, rfl⟩
        rw [hm] at hdiv ⊢
        omega

/- ------------------------------------------------------------------ -/
/- Facts about states produced by begin.                               -/
/- ------------------------------------------------------------------ -/

/-- begin always enters Active mode. -/
lemma begun_mode (chip select wp : Nat) :
    ((begin chip select wp).1).mode ≠ 0 := one_ne_zero

/-- The capacity field is masked to 17 bits, hence below 2^32. -/
lemma begun_chip_size_lt (chip select wp : Nat) :
    ((begin chip select wp).1).chip_size < 4294967296 := by
  have h : chip &&& 0x0001FFFF ≤ 0x0001FFFF := Nat.and_le_right
  show chip &&& 0x0001FFFF < 4294967296
  omega

/-- The base device address of a begun state. -/
lemma begun_chip_addr (chip select wp : Nat) :
    ((begin chip select wp).1).chip_addr = 0x50 ||| (select &&& 0x07) := rfl

/-- For every catalog chip the effective page size of any write is at
    least 8 (pages are 8..128 bytes; the wide-address cap is 16). -/
lemma begun_effPage (chip : Nat) (hchip : chip ∈ catalog)
    (select wp n : Nat) : 8 ≤ effPageSize (begin chip select wp).1 n := by
  simp only [catalog, List.mem_cons, List.not_mem_nil, or_false] at hchip
  rcases hchip with rfl | rfl | rfl | rfl | rfl | rfl | rfl | rfl | rfl | rfl <;>
  · unfold effPageSize
    split
    · norm_num
    · first
      | exact (by norm_num : (8:Nat) ≤ 8)
      | exact (by norm_num : (8:Nat) ≤ 16)
      | exact (by norm_num : (8:Nat) ≤ 32)
      | exact (by norm_num : (8:Nat) ≤ 64)
      | exact (by norm_num : (8:Nat) ≤ 128)

/- ------------------------------------------------------------------ -/
/- Bit-level facts about the device-address computation.               -/
/- ------------------------------------------------------------------ -/

/-- Masking the begun base address with 0xF8 clears the three select bits
    and leaves exactly 0x50. -/
lemma chipAddr_mask (select : Nat) :
    (0x50 ||| (select &&& 0x07)) &&& 0xF8 = 0x50 := by
  have h : select &&& 0x07 ≤ 7 := Nat.and_le_right
  have hb : ∀ t : Nat, t ≤ 7 → (0x50 ||| t) &&& 0xF8 = 0x50 := by decide
  exact hb _ h

/-- The overflow-bit substitute extracted from any cursor is at most 7. -/
lemma ovBits_le (cursor : Nat) : (cursor &&& 0x0700) >>> 8 ≤ 7 := by
  have h : cursor &&& 0x0700 ≤ 0x0700 := Nat.and_le_right
  have h2 : (cursor &&& 0x0700) >>> 8 = (cursor &&& 0x0700) / 256 := by
    rw [Nat.shiftRight_eq_div_pow]
  rw [h2]
  omega

/-- The device address actually used is always in 0x50..0x57 and has upper
    nibble 0x5, for any begun base address and any cursor. -/
lemma devAddrAt_range (s : AT24CXX) (select : Nat)
    (h : s.chip_addr = 0x50 ||| (select &&& 0x07)) (c : Nat) :
    0x50 ≤ devAddrAt s c ∧ devAddrAt s c ≤ 0x57 ∧ devAddrAt s c >>> 4 = 5 := by
  have hb : ∀ t : Nat, t ≤ 7 →
      0x50 ≤ 0x50 ||| t ∧ (0x50 ||| t) ≤ 0x57 ∧
      (0x50 ||| t) % 256 = 0x50 ||| t ∧ (0x50 ||| t) >>> 4 = 5 := by decide
  unfold devAddrAt
  split
  · rw [h, chipAddr_mask]
    obtain ⟨h1, h2, h3, h4⟩ := hb _ (ovBits_le c)
    rw [h3]
    exact ⟨h1, h2, h4⟩
  · rw [h]
    obtain ⟨h1, h2, -, h4⟩ := hb _ (Nat.and_le_right (n := select) (m := 0x07))
    exact ⟨h1, h2, h4⟩

/-- With overflow bits configured, the device address used at cursor c is
    exactly 0x50 with bits 8..10 of c in its low three bits: the select
    bits of the base address are masked out entirely. -/
lemma devAddrAt_ov (s : AT24CXX) (select : Nat)
    (hsel : s.chip_addr = 0x50 ||| (select &&& 0x07))
    (hov : s.addr_ov_bits ≠ 0) (c : Nat) :
    devAddrAt s c = 0x50 ||| ((c &&& 0x0700) >>> 8) := by
  unfold devAddrAt
  rw [if_pos hov, hsel, chipAddr_mask]
  have hmod : ∀ t : Nat, t ≤ 7 → (0x50 ||| t) % 256 = 0x50 ||| t := by decide
  exact hmod _ (ovBits_le c)

/-- Extracting bits 8..10 and shifting down is masking the down-shifted
    value with 7. -/
lemma and700_shiftRight (c : Nat) :
    (c &&& 0x0700) >>> 8 = (c >>> 8) &&& 7 := by
  apply Nat.eq_of_testBit_eq
  intro i
  rw [Nat.testBit_shiftRight, Nat.testBit_land, Nat.testBit_land,
    Nat.testBit_shiftRight]
  congr 1
  have h : (0x0700 : Nat) = 7 <<< 8 := by decide
  rw [h, Nat.testBit_shiftLeft]
  simp

/-- A cursor below 2^(8+k) keeps its down-shift below 2^k. -/
lemma shiftRight8_lt (c k : Nat) (hc : c < 2 ^ (8 + k)) : c >>> 8 < 2 ^ k := by
  rw [Nat.shiftRight_eq_div_pow]
  apply Nat.div_lt_of_lt_mul
  rw [← Nat.pow_add]
  exact hc

/-- For cursors inside a 512-byte part (1 overflow bit): the low bit of the
    substituted device address is bit 8 of the cursor and the upper bits are
    those of 0x50. -/
lemma ovFact1 (c : Nat) (hc : c < 512) :
    (0x50 ||| ((c &&& 0x0700) >>> 8)) % 2 = (c >>> 8) % 2 ∧
    (0x50 ||| ((c &&& 0x0700) >>> 8)) >>> 1 = 0x50 >>> 1 := by
  have hv : c >>> 8 < 2 := by
    have h9 : (2:Nat) ^ (8 + 1) = 512 := by norm_num
    have := shiftRight8_lt c 1 (by omega)
    simpa using this
  rw [and700_shiftRight]
  have hb : ∀ v, v ≤ 7 → v &&& 7 = v := by decide
  rw [hb _ (by omega)]
  have hb2 : ∀ v, v < 2 → (0x50 ||| v) % 2 = v % 2 ∧
      (0x50 ||| v) >>> 1 = 0x50 >>> 1 := by decide
  exact hb2 _ hv

/-- For cursors inside a 1024-byte part (2 overflow bits). -/
lemma ovFact2 (c : Nat) (hc : c < 1024) :
    (0x50 ||| ((c &&& 0x0700) >>> 8)) % 4 = (c >>> 8) % 4 ∧
    (0x50 ||| ((c &&& 0x0700) >>> 8)) >>> 2 = 0x50 >>> 2 := by
  have hv : c >>> 8 < 4 := by
    have h10 : (2:Nat) ^ (8 + 2) = 1024 := by norm_num
    have := shiftRight8_lt c 2 (by omega)
    simpa using this
  rw [and700_shiftRight]
  have hb : ∀ v, v ≤ 7 → v &&& 7 = v := by decide
  rw [hb _ (by omega)]
  have hb2 : ∀ v, v < 4 → (0x50 ||| v) % 4 = v % 4 ∧
      (0x50 ||| v) >>> 2 = 0x50 >>> 2 := by decide
  exact hb2 _ hv

/-- For cursors inside a 2048-byte part (3 overflow bits). -/
lemma ovFact3 (c : Nat) (hc : c < 2048) :
    (0x50 ||| ((c &&& 0x0700) >>> 8)) % 8 = (c >>> 8) % 8 ∧
    (0x50 ||| ((c &&& 0x0700) >>> 8)) >>> 3 = 0x50 >>> 3 := by
  have hv : c >>> 8 < 8 := by
    have h11 : (2:Nat) ^ (8 + 3) = 2048 := by norm_num
    have := shiftRight8_lt c 3 (by omega)
    simpa using this
  rw [and700_shiftRight]
  have hb : ∀ v, v ≤ 7 → v &&& 7 = v := by decide
  rw [hb _ (by omega)]
  have hb2 : ∀ v, v < 8 → (0x50 ||| v) % 8 = v % 8 ∧
      (0x50 ||| v) >>> 3 = 0x50 >>> 3 := by decide
  exact hb2 _ hv

/-- The begun base address itself lies in 0x50..0x57 with upper nibble
    0x5, for every select value. -/
lemma baseAddr_range (select : Nat) :
    0x50 ≤ 0x50 ||| (select &&& 0x07) ∧
    (0x50 ||| (select &&& 0x07)) ≤ 0x57 ∧
    (0x50 ||| (select &&& 0x07)) >>> 4 = 5 := by
  have hb : ∀ t : Nat, t ≤ 7 → 0x50 ≤ 0x50 ||| t ∧ (0x50 ||| t) ≤ 0x57 ∧
      (0x50 ||| t) >>> 4 = 5 := by decide
  exact hb _ Nat.and_le_right

/- ------------------------------------------------------------------ -/
/- Claims.                                                             -/
/- ------------------------------------------------------------------ -/

/-- Claim C1: for every Active controller configured with a legal catalog
    variant and every in-range write request (1 <= n <= 255,
    address + n <= capacity), the paged write succeeds and issues exactly
    ceil((n + address mod P) / P) bus write transactions, where P is the
    effective page size, each carrying at most P payload bytes; in
    particular on AT24C02 (page 8) write(3, buf, 26) issues 4 transactions
    with payload lengths 5, 8, 8, 5 at starting cursors 3, 8, 16, 24 and
    device address 0x50 throughout. -/
theorem C1_paged_write_transactions :
    ∀ chip ∈ catalog, ∀ (select wp address n : Nat) (vals : List Nat),
    1 ≤ n → n ≤ 255 →
    address + n ≤ ((begin chip select wp).1).chip_size →
    (writeN (begin chip select wp).1 address vals n).1 = true ∧
    (writeN (begin chip select wp).1 address vals n).2.length =
      (n + address % effPageSize (begin chip select wp).1 n +
        (effPageSize (begin chip select wp).1 n - 1)) /
        effPageSize (begin chip select wp).1 n ∧
    (∀ tx ∈ (writeN (begin chip select wp).1 address vals n).2,
        tx.payload.length ≤ effPageSize (begin chip select wp).1 n) ∧
    (writeArr (begin AT24C02 0 255).1 3 (List.range 26) 26).2.map
        (fun tx => (tx.devAddr, tx.cursor, tx.payload.length)) =
      [(0x50, 3, 5), (0x50, 8, 8), (0x50, 16, 8), (0x50, 24, 5)] := by
  intro chip hchip select wp address n vals hn1 hn2 hsz
  have h := writeN_ok_length (begin chip select wp).1 address vals n
    (begun_mode chip select wp) hn1 hn2 hsz
    (begun_chip_size_lt chip select wp) (begun_effPage chip hchip select wp n)
  exact ⟨h.1, h.2, writeN_payload_le _ address vals n, by decide⟩

/-- Witness for C1: the AT24C02 scenario write(3, buf, 26). -/
theorem C1_paged_write_transactions_witness :
    (writeN (begin AT24C02 0 255).1 3 (List.range 26) 26).1 = true ∧
    (writeN (begin AT24C02 0 255).1 3 (List.range 26) 26).2.length =
      (26 + 3 % effPageSize (begin AT24C02 0 255).1 26 +
        (effPageSize (begin AT24C02 0 255).1 26 - 1)) /
        effPageSize (begin AT24C02 0 255).1 26 ∧
    (writeArr (begin AT24C02 0 255).1 3 (List.range 26) 26).2.map
        (fun tx => (tx.devAddr, tx.cursor, tx.payload.length)) =
      [(0x50, 3, 5), (0x50, 8, 8), (0x50, 16, 8), (0x50, 24, 5)] := by
  have h := C1_paged_write_transactions AT24C02 (by decide) 0 255 3 26
    (List.range 26) (by norm_num) (by norm_num) (by decide)
  exact ⟨h.1, h.2.1, h.2.2.2⟩

/-- Claim C2 as stated fails: on AT24C08 (overflow_bits = 2) with select
    7, the write transaction at cursor 510 uses device address 0x51 — the
    code masks the base address with 0xF8, clearing all three select bits
    — while the formula of the claim (select masked only above the
    overflow bits) yields 0x55. -/
theorem C2_counterexample_select_masked_out :
    (writeArr (begin AT24C08 7 255).1 510 [1, 2] 2).2.map
      (fun tx => tx.devAddr == specDevAddr 7 2 tx.cursor) = [false] ∧
    (writeArr (begin AT24C08 7 255).1 510 [1, 2] 2).2.map
      (fun tx => tx.devAddr) = [0x51] ∧
    specDevAddr 7 2 510 = 0x55 :=
  ⟨by decide, by decide, by decide⟩

/-- Claim C2, amended: for every Active controller on a catalog variant
    with overflow_bits = k > 0 and every in-range write, each transaction
    at cursor C uses device-address byte 0x50 OR bits 8..10 of C; its low
    k bits equal bits [8+k-1 : 8] of C and its upper bits equal those of
    0x50 — the caller select value is masked out entirely, not merely its
    low k bits.  The S2 scenario (AT24C08, select 0, write(510, buf, 21))
    holds: device address 0x51 at cursor 510, then 0x52 at 512 and 528. -/
theorem C2_overflow_device_address :
    ∀ chip ∈ [AT24C04, AT24C08, AT24C16], ∀ (select wp address n : Nat)
      (vals : List Nat),
    1 ≤ n → n ≤ 255 →
    address + n ≤ ((begin chip select wp).1).chip_size →
    (∀ tx ∈ (writeN (begin chip select wp).1 address vals n).2,
      tx.devAddr = 0x50 ||| ((tx.cursor &&& 0x0700) >>> 8) ∧
      tx.devAddr % 2 ^ ((begin chip select wp).1).addr_ov_bits =
        (tx.cursor >>> 8) % 2 ^ ((begin chip select wp).1).addr_ov_bits ∧
      tx.devAddr >>> ((begin chip select wp).1).addr_ov_bits =
        0x50 >>> ((begin chip select wp).1).addr_ov_bits) ∧
    (writeArr (begin AT24C08 0 255).1 510 (List.range 21) 21).2.map
      (fun tx => (tx.devAddr, tx.cursor)) =
      [(0x51, 510), (0x52, 512), (0x52, 528)] := by
  intro chip hchip select wp address n vals hn1 hn2 hsz
  refine ⟨?_, by decide⟩
  intro tx htx
  have hd := (writeN_devAddr _ address vals n tx htx).1
  simp only [List.mem_cons, List.not_mem_nil, or_false] at hchip
  rcases hchip with rfl | rfl | rfl
  · have hP : 8 ≤ effPageSize (begin AT24C04 select wp).1 n :=
      begun_effPage AT24C04 (by decide) select wp n
    have hcur : tx.cursor < address + n :=
      writeN_cursor_lt _ address vals n hn1 hn2 hP tx htx
    have hsz' : address + n ≤ 512 := hsz
    have hform := devAddrAt_ov (begin AT24C04 select wp).1 select
      (begun_chip_addr AT24C04 select wp) one_ne_zero tx.cursor
    rw [hd, hform]
    refine ⟨rfl, ?_, ?_⟩
    · show (0x50 ||| ((tx.cursor &&& 0x0700) >>> 8)) % 2 =
        (tx.cursor >>> 8) % 2
      exact (ovFact1 tx.cursor (by omega)).1
    · show (0x50 ||| ((tx.cursor &&& 0x0700) >>> 8)) >>> 1 = 0x50 >>> 1
      exact (ovFact1 tx.cursor (by omega)).2
  · have hP : 8 ≤ effPageSize (begin AT24C08 select wp).1 n :=
      begun_effPage AT24C08 (by decide) select wp n
    have hcur : tx.cursor < address + n :=
      writeN_cursor_lt _ address vals n hn1 hn2 hP tx htx
    have hsz' : address + n ≤ 1024 := hsz
    have hform := devAddrAt_ov (begin AT24C08 select wp).1 select
      (begun_chip_addr AT24C08 select wp) two_ne_zero tx.cursor
    rw [hd, hform]
    refine ⟨rfl, ?_, ?_⟩
    · show (0x50 ||| ((tx.cursor &&& 0x0700) >>> 8)) % 4 =
        (tx.cursor >>> 8) % 4
      exact (ovFact2 tx.cursor (by omega)).1
    · show (0x50 ||| ((tx.cursor &&& 0x0700) >>> 8)) >>> 2 = 0x50 >>> 2
      exact (ovFact2 tx.cursor (by omega)).2
  · have hP : 8 ≤ effPageSize (begin AT24C16 select wp).1 n :=
      begun_effPage AT24C16 (by decide) select wp n
    have hcur : tx.cursor < address + n :=
      writeN_cursor_lt _ address vals n hn1 hn2 hP tx htx
    have hsz' : address + n ≤ 2048 := hsz
    have hform := devAddrAt_ov (begin AT24C16 select wp).1 select
      (begun_chip_addr AT24C16 select wp) three_ne_zero tx.cursor
    rw [hd, hform]
    refine ⟨rfl, ?_, ?_⟩
    · show (0x50 ||| ((tx.cursor &&& 0x0700) >>> 8)) % 8 =
        (tx.cursor >>> 8) % 8
      exact (ovFact3 tx.cursor (by omega)).1
    · show (0x50 ||| ((tx.cursor &&& 0x0700) >>> 8)) >>> 3 = 0x50 >>> 3
      exact (ovFact3 tx.cursor (by omega)).2

/-- Witness for the amended C2: the S2 scenario on AT24C08. -/
theorem C2_overflow_device_address_witness :
    (writeArr (begin AT24C08 0 255).1 510 (List.range 21) 21).2.map
      (fun tx => (tx.devAddr, tx.cursor)) =
      [(0x51, 510), (0x52, 512), (0x52, 528)] :=
  (C2_overflow_device_address AT24C08 (by decide) 0 255 510 21
    (List.range 21) (by norm_num) (by norm_num) (by decide)).2

/-- Claim C3 describes the intended multi-byte read; the uint8_t* overload
    of the source instead delegates to readN with a hard-coded length of 1
    (at24cxx.cpp line 116): read(0, out, 2) on an Active AT24C02 requests
    a single byte from the bus, not the two asked for, while the char[]
    overload passes the caller length through. -/
theorem C3_read_uint8_overload_reads_one :
    readArr (begin AT24C02 0 255).1 0 2 =
      { ok := true, setups := [(0x50, [0])], requests := [(0x50, 1)] } ∧
    ((readArr (begin AT24C02 0 255).1 0 2).requests.map Prod.snd).sum = 1 ∧
    readStr (begin AT24C02 0 255).1 0 2 =
      { ok := true, setups := [(0x50, [0])], requests := [(0x50, 2)] } :=
  ⟨by decide, by decide, by decide⟩

/-- Claim C4: with two word-address bytes and n > 30 the effective page
    size used to split the write is 16 instead of page_size_bytes (32 on
    AT24C64); concretely write(0, buf, 40) on AT24C64 issues 3
    transactions with payload lengths 16, 16, 8. -/
theorem C4_wide_address_page_cap :
    (∀ (s : AT24CXX) (n : Nat), 1 < s.addr_bytes → 30 < n →
      effPageSize s n = 16) ∧
    ((begin AT24C64 0 255).1).page_size = 32 ∧
    (writeArr (begin AT24C64 0 255).1 0 (List.range 40) 40).2.map
      (fun tx => tx.payload.length) = [16, 16, 8] := by
  refine ⟨?_, rfl, by decide⟩
  intro s n h1 h2
  unfold effPageSize
  rw [if_pos ⟨h1, h2⟩]

/-- Witness for C4 on AT24C64 with n = 40. -/
theorem C4_wide_address_page_cap_witness :
    effPageSize (begin AT24C64 0 255).1 40 = 16 :=
  C4_wide_address_page_cap.1 ((begin AT24C64 0 255).1) 40 (by decide)
    (by norm_num)

/-- Claim C5: for every controller state, Active or not, a write whose
    range exceeds the capacity returns false and issues zero bus
    transactions. -/
theorem C5_out_of_range_write_rejected :
    ∀ (s : AT24CXX) (address n : Nat) (vals : List Nat),
    address < 65536 → n ≤ 255 → s.chip_size < address + n →
    writeN s address vals n = (false, []) ∧
    writeArr s address vals n = (false, []) ∧
    writeStr s address vals n = (false, []) := by
  intro s address n vals ha hn hsz
  have hmod : (address + n) % 4294967296 = address + n :=
    Nat.mod_eq_of_lt (by omega)
  have h : writeN s address vals n = (false, []) := by
    simp only [writeN]
    rw [if_neg]
    rintro ⟨-, hle⟩
    rw [hmod] at hle
    omega
  exact ⟨h, h, h⟩

/-- Witness for C5: write(255, buf, 2) on an Active AT24C02. -/
theorem C5_out_of_range_write_rejected_witness :
    writeN (begin AT24C02 0 255).1 255 [1, 2] 2 = (false, []) ∧
    writeArr (begin AT24C02 0 255).1 255 [1, 2] 2 = (false, []) ∧
    writeStr (begin AT24C02 0 255).1 255 [1, 2] 2 = (false, []) :=
  C5_out_of_range_write_rejected ((begin AT24C02 0 255).1) 255 2 [1, 2]
    (by norm_num) (by norm_num) (by decide)

/-- Claim C6 expects an out-of-range multi-byte read to return false with
    no bus traffic; because the uint8_t* overload hard-codes length 1, the
    guard sees address + 1 and read(capacity - 1, out, 2) instead returns
    true and issues bus traffic (the char[] overload rejects as the claim
    says). -/
theorem C6_read_end_boundary_accepted :
    (readArr (begin AT24C02 0 255).1 255 2).ok = true ∧
    (readArr (begin AT24C02 0 255).1 255 2).setups = [(0x50, [255])] ∧
    (readArr (begin AT24C02 0 255).1 255 2).requests = [(0x50, 1)] ∧
    readStr (begin AT24C02 0 255).1 255 2 =
      { ok := false, setups := [], requests := [] } :=
  ⟨by decide, by decide, by decide, by decide⟩

/-- Claim C7: before begin, every bus-facing operation is a no-op
    returning failure with no bus traffic; the write-protect toggles,
    however, are not gated on mode, and because the uint8_t _wp_pin
    (constructed as -1, stored 255) can never compare equal to int -1,
    they drive pin 255 even on a never-configured controller. -/
theorem C7_unconfigured_gating :
    (∀ (address n val : Nat) (vals : List Nat) (ack : Bool),
      writeN defaultState address vals n = (false, []) ∧
      writeArr defaultState address vals n = (false, []) ∧
      writeStr defaultState address vals n = (false, []) ∧
      write1 defaultState address val = (false, []) ∧
      readN defaultState address n =
        { ok := false, setups := [], requests := [] } ∧
      readArr defaultState address n =
        { ok := false, setups := [], requests := [] } ∧
      readStr defaultState address n =
        { ok := false, setups := [], requests := [] } ∧
      read1 defaultState address =
        { ok := false, setups := [], requests := [] } ∧
      isConnected defaultState ack = (false, [])) ∧
    setWriteProtect defaultState = [PinEvent.digitalWrite 255 true] ∧
    clearWriteProtect defaultState = [PinEvent.digitalWrite 255 false] := by
  refine ⟨?_, rfl, rfl⟩
  intro address n val vals ack
  have hw : ∀ (a m : Nat) (vs : List Nat),
      writeN defaultState a vs m = (false, []) := by
    intro a m vs
    simp only [writeN]
    rw [if_neg]
    rintro ⟨h, -⟩
    exact h rfl
  have hr : ∀ (a m : Nat), readN defaultState a m =
      { ok := false, setups := [], requests := [] } := by
    intro a m
    simp only [readN]
    rw [if_neg]
    rintro ⟨h, -⟩
    exact h rfl
  refine ⟨hw _ _ _, hw _ _ _, hw _ _ _, hw _ _ _, hr _ _, hr _ _, hr _ _,
    hr _ _, ?_⟩
  simp only [isConnected]
  rw [if_neg]
  intro h
  exact h rfl

/-- Claim C8 expects the WP toggles to drive the pin exactly when a WP
    line was configured; because _wp_pin is a uint8_t, the sentinel -1 is
    stored as 255 and the (_wp_pin != -1) guard is always true: begin with
    the default wp_pin argument configures and drives pin 255 low, and the
    toggles drive pin 255 high and low; with a real pin (5) they behave as
    the claim says. -/
theorem C8_write_protect_guard_always_true :
    (begin AT24C02 0 255).2 =
      [PinEvent.pinModeOutput 255, PinEvent.digitalWrite 255 false] ∧
    setWriteProtect (begin AT24C02 0 255).1 =
      [PinEvent.digitalWrite 255 true] ∧
    clearWriteProtect (begin AT24C02 0 255).1 =
      [PinEvent.digitalWrite 255 false] ∧
    setWriteProtect (begin AT24C02 0 5).1 =
      [PinEvent.digitalWrite 5 true] ∧
    clearWriteProtect (begin AT24C02 0 5).1 =
      [PinEvent.digitalWrite 5 false] :=
  ⟨by decide, by decide, by decide, by decide, by decide⟩

/-- Claim C9: every device address handed to beginTransmission or
    requestFrom lies in 0x50..0x57 — upper four bits 0x5 — for writes,
    reads and the connection probe alike, on any catalog chip with any
    select value and any in-range operation. -/
theorem C9_device_address_upper_nibble :
    ∀ chip ∈ catalog, ∀ (select wp address n : Nat) (vals : List Nat)
      (ack : Bool),
    1 ≤ n → n ≤ 255 →
    address + n ≤ ((begin chip select wp).1).chip_size →
    (∀ tx ∈ (writeN (begin chip select wp).1 address vals n).2,
        0x50 ≤ tx.devAddr ∧ tx.devAddr ≤ 0x57 ∧ tx.devAddr >>> 4 = 5) ∧
    (∀ p ∈ (readN (begin chip select wp).1 address n).setups,
        0x50 ≤ p.1 ∧ p.1 ≤ 0x57 ∧ p.1 >>> 4 = 5) ∧
    (∀ p ∈ (readN (begin chip select wp).1 address n).requests,
        0x50 ≤ p.1 ∧ p.1 ≤ 0x57 ∧ p.1 >>> 4 = 5) ∧
    (∀ a ∈ (isConnected (begin chip select wp).1 ack).2,
        0x50 ≤ a ∧ a ≤ 0x57 ∧ a >>> 4 = 5) := by
  intro chip hchip select wp address n vals ack hn1 hn2 hsz
  have hrange := devAddrAt_range (begin chip select wp).1 select
    (begun_chip_addr chip select wp)
  refine ⟨?_, ?_, ?_, ?_⟩
  · intro tx htx
    rw [(writeN_devAddr _ address vals n tx htx).1]
    exact hrange tx.cursor
  · intro p hp
    rcases readN_cases (begin chip select wp).1 address n with hc | hc <;>
      rw [hc] at hp
    · exact absurd hp (List.not_mem_nil p)
    · rcases List.mem_cons.mp hp with h | h
      · rw [h]
        exact hrange address
      · exact absurd h (List.not_mem_nil p)
  · intro p hp
    rcases readN_cases (begin chip select wp).1 address n with hc | hc <;>
      rw [hc] at hp
    · exact absurd hp (List.not_mem_nil p)
    · obtain ⟨k, hk, hpk⟩ := List.mem_map.mp hp
      rw [← hpk]
      exact hrange address
  · intro a ha
    simp only [isConnected] at ha
    split at ha
    · rcases List.mem_cons.mp ha with h | h
      · rw [h, begun_chip_addr]
        exact baseAddr_range select
      · exact absurd h (List.not_mem_nil a)
    · exact absurd ha (List.not_mem_nil a)

/-- Witness for C9: the single transaction of write(0, [7], 1) on
    AT24C02. -/
theorem C9_device_address_upper_nibble_witness :
    0x50 ≤ (WriteTx.mk 0x50 [0] [7] 0).devAddr ∧
    (WriteTx.mk 0x50 [0] [7] 0).devAddr ≤ 0x57 ∧
    (WriteTx.mk 0x50 [0] [7] 0).devAddr >>> 4 = 5 :=
  (C9_device_address_upper_nibble AT24C02 (by decide) 0 255 0 1 [7] true
    (by norm_num) (by norm_num) (by decide)).1
    (WriteTx.mk 0x50 [0] [7] 0) (by decide)

/-- Claim C10: the range guard compares the exact arithmetic sum
    address + n with the capacity, with no 16-bit wraparound (the sum is
    computed in 32-bit int and cast to uint32_t, the identity for these
    operands): for an Active controller the engines reject exactly when
    address + n exceeds the capacity; in particular write(0xFFFF, buf, 2)
    is rejected even on the 65536-byte AT24C512, and so is the
    corresponding read. -/
theorem C10_exact_range_guard :
    (∀ (s : AT24CXX) (address n : Nat) (vals : List Nat),
      address < 65536 → n ≤ 255 → s.mode ≠ 0 →
      ((writeN s address vals n).1 = false ↔ s.chip_size < address + n) ∧
      ((readN s address n).ok = false ↔ s.chip_size < address + n)) ∧
    writeArr (begin AT24C512 0 255).1 0xFFFF [1, 2] 2 = (false, []) ∧
    (readStr (begin AT24C512 0 255).1 0xFFFF 2).ok = false := by
  refine ⟨?_, by decide, by decide⟩
  intro s address n vals ha hn hmode
  have hmod : (address + n) % 4294967296 = address + n :=
    Nat.mod_eq_of_lt (by omega)
  constructor
  · simp only [writeN]
    split
    next hguard =>
      rw [hmod] at hguard
      exact iff_of_false (by simp) (by omega)
    next hguard =>
      rw [hmod] at hguard
      exact iff_of_true rfl (by omega)
  · simp only [readN]
    split
    next hguard =>
      rw [hmod] at hguard
      exact iff_of_false (by simp) (by omega)
    next hguard =>
      rw [hmod] at hguard
      exact iff_of_true rfl (by omega)

/-- Witness for C10: the guard equivalence instantiated on an Active
    AT24C02 at address 255 with n = 2. -/
theorem C10_exact_range_guard_witness :
    ((writeN (begin AT24C02 0 255).1 255 [1, 2] 2).1 = false ↔
      ((begin AT24C02 0 255).1).chip_size < 255 + 2) ∧
    ((readN (begin AT24C02 0 255).1 255 2).ok = false ↔
      ((begin AT24C02 0 255).1).chip_size < 255 + 2) :=
  C10_exact_range_guard.1 ((begin AT24C02 0 255).1) 255 2 [1, 2]
    (by norm_num) (by norm_num) (by decide)
